import Mathlib

/-
Verification of the pymerkle library against its specification.

Shallow embedding conventions:
* byte strings are `List Nat`;
* the sources under verification are `pymerkle/utils.py`, `pymerkle/nodes.py`
  and `pymerkle/proof.py`; the modules `pymerkle/hashing.py`,
  `pymerkle/tree.py` and `pymerkle/serializers.py` are not part of the
  available sources, so the definitions that depend on them are modelled
  from the specification (each such definition says so in its doc comment);
* Python's mutable object graph of nodes is embedded as a heap-style store
  mapping allocation ids to node records;
* fallible operations return `Except`.
-/

-- ===================== Hash engine (spec-modelled) =====================

/-- Modelled from the spec: `pymerkle/hashing.py` is absent from the sources.
A hash engine configuration consists of an algorithm, a text encoding and a
security flag.  The algorithm and the encoding are abstracted as functions:
`hexdigest` maps an input byte string to the lowercase hex digest string of
the configured algorithm, and `encode` encodes a text string to bytes under
the configured encoding. -/
structure HashEngine where
  hexdigest : List Nat → String
  encode : String → List Nat
  security : Bool

/-- Modelled from the spec: the `0x00` security pr: the character `'\x00'`
encoded under the engine's encoding. -/
def HashEngine.prefx00 (e : HashEngine) : List Nat :=
  e.encode "\x00"

/-- Modelled from the spec: the character `'\x01'` encoded under the
engine's encoding. -/
def HashEngine.prefx01 (e : HashEngine) : List Nat :=
  e.encode "\x01"

/-- Modelled from the spec: `hash_data` on byte input.  If security is on,
the single byte `0x00` (encoded under the engine's encoding) is prepended to
the input; the result is the lowercase hex digest, itself encoded under the
engine's encoding. -/
def HashEngine.hash_data (e : HashEngine) (data : List Nat) : List Nat :=
  if e.security then e.encode (e.hexdigest (e.prefx00 ++ data))
  else e.encode (e.hexdigest data)

/-- Modelled from the spec: `hash_data` on string input; the string is first
encoded under the engine's encoding. -/
def HashEngine.hash_data_str (e : HashEngine) (record : String) : List Nat :=
  e.hash_data (e.encode record)

/-- Modelled from the spec: `hash_pair(a, b)` hashes `0x01 || a || 0x01 || b`
when security is on and `a || b` otherwise, returning the hex digest encoded
under the engine's encoding. -/
def HashEngine.hash_pair (e : HashEngine) (a b : List Nat) : List Nat :=
  if e.security then e.encode (e.hexdigest (e.prefx01 ++ a ++ e.prefx01 ++ b))
  else e.encode (e.hexdigest (a ++ b))

/-- Failure conditions of the hash engine. -/
inductive HashPathError where
  | emptyPath
deriving DecidableEq

/-- Modelled from the spec: the fold loop of `hash_path`.  While the sequence
has more than one element, the element at the current index `i` is combined
with the neighbor indicated by its sign (`+1`: the right neighbor, current is
the left operand of `hash_pair`; otherwise: the left neighbor, current is the
right operand).  When `i` sits at an end where the indicated neighbor does
not exist, the neighbor on the available side is used instead and the current
element's role flips.  The merged element replaces the pair at the lesser of
the two indices and keeps the sign found at that lesser index.  The fuel
argument is instantiated with the length of the sequence, which bounds the
number of merge steps. -/
def hashPathLoop (hp : List Nat → List Nat → List Nat) :
    Nat → List (Int × List Nat) → Nat → List Nat
  | _, [], _ => []
  | _, [(_, d)], _ => d
  | 0, (_, d) :: _, _ => d
  | fuel + 1, l, i =>
      let cur := l.getD i (0, [])
      if cur.1 = 1 ∧ i + 1 < l.length ∨ ¬ cur.1 = 1 ∧ i = 0 then
        hashPathLoop hp fuel
          (l.take i ++ (cur.1, hp cur.2 (l.getD (i + 1) (0, [])).2) :: l.drop (i + 2)) i
      else
        hashPathLoop hp fuel
          (l.take (i - 1) ++
            ((l.getD (i - 1) (0, [])).1, hp (l.getD (i - 1) (0, [])).2 cur.2) ::
              l.drop (i + 1))
          (i - 1)

/-- Modelled from the spec: `hash_path(signed, start)` folds a non-empty
sequence of sign-tagged digests into a single digest, starting the reduction
at index `start`; it fails with `EmptyPath` on the empty sequence. -/
def HashEngine.hash_path (e : HashEngine) (signed : List (Int × List Nat))
    (start : Nat) : Except HashPathError (List Nat) :=
  match signed with
  | [] => Except.error HashPathError.emptyPath
  | _ => Except.ok (hashPathLoop e.hash_pair signed.length signed start)

-- ===================== Math utilities (pymerkle/utils.py) =====================

/-- Embeds the documented intent of `log_2` of `pymerkle/utils.py` (its
docstring: the logarithm of the greatest power of 2 equal to or smaller than
`length`), with `log_2 0 = 0`.  The source actually computes
`int(math.log(length, 2))` in double-precision floating point, which departs
from its docstring at large inputs: at `length = 2^48 - 1` the float rounds
up and the source returns 48 where the greatest-power exponent is 47 (see
the C8 theorem on that failing input). -/
def log_2 (length : Nat) : Nat :=
  if length = 0 then 0 else Nat.log 2 length

/-- Embeds `powers_of` of `pymerkle/utils.py`: the additive decomposition of
`integer` in decreasing powers of 2, computed greedily with `log_2`. -/
def powers_of (integer : Nat) : List Nat :=
  if _h : 0 < integer then
    log_2 integer :: powers_of (integer - 2 ^ log_2 integer)
  else
    []
  termination_by integer
  decreasing_by
    have h2 : 0 < 2 ^ log_2 integer := pow_pos (by norm_num) _
    omega

-- ===================== Node graph (pymerkle/nodes.py) =====================

/-- A node record of `pymerkle/nodes.py`: the stored digest together with the
parent, left-child and right-child references (heap ids, absent = `none`). -/
structure NodeRec where
  value : List Nat
  parent : Option Nat
  left : Option Nat
  right : Option Nat
deriving DecidableEq

/-- The heap of node objects: a partial map from allocation ids to node
records plus the next fresh id. -/
structure Store where
  mem : Nat → Option NodeRec
  next : Nat

/-- Embeds the private parent-field assignment `left.__parent = self` of
`Node.__init__`: updates the parent reference of the node stored at id `i`
(a missing id leaves the store unchanged; in Python only existing objects
can be passed, which the theorems assume via hypotheses). -/
def Store.setParent (st : Store) (i : Nat) (p : Option Nat) : Store :=
  match st.mem i with
  | some nd =>
      { st with mem := fun j => if j = i then some { nd with parent := p } else st.mem j }
  | none => st

/-- Reads the digest stored at id `i` (default `[]` for a missing id). -/
def Store.valueAt (st : Store) (i : Nat) : List Nat :=
  match st.mem i with
  | some nd => nd.value
  | none => []

/-- Embeds `Node.__init__` of `pymerkle/nodes.py`: allocates a node with the
given value, parent and children, then sets the parent reference of each
present child to the new node.  Returns the new store and the new node's id. -/
def Node_init (st : Store) (value : List Nat) (parent left right : Option Nat) :
    Store × Nat :=
  let idx := st.next
  let st1 : Store :=
    { mem := fun j => if j = idx then some ⟨value, parent, left, right⟩ else st.mem j,
      next := idx + 1 }
  let st2 := match left with
    | some i => st1.setParent i (some idx)
    | none => st1
  let st3 := match right with
    | some i => st2.setParent i (some idx)
    | none => st2
  (st3, idx)

/-- Embeds `Node.from_children` of `pymerkle/nodes.py`: builds a node whose
value is `engine.hash_pair(left.value, right.value)`, with the given children
and no parent. -/
def Node.from_children (e : HashEngine) (st : Store) (l r : Nat) : Store × Nat :=
  Node_init st (e.hash_pair (st.valueAt l) (st.valueAt r)) none (some l) (some r)

-- ===================== Proof objects (pymerkle/proof.py) =====================

/-- The header dictionary of a proof object, as built by `Proof.__init__` of
`pymerkle/proof.py`. -/
structure ProofHeader where
  uuid : String
  timestamp : Int
  creation_moment : String
  generation : Bool
  provider : String
  hash_type : String
  encoding : String
  security : Bool
  status : Option Bool
deriving DecidableEq

/-- The body dictionary of a proof object: `proof_index` (`None` or an
integer) and `proof_path` (`None` or a sequence of sign-tagged hex digests;
digests are carried as text, which is how deserialized proofs hold them). -/
structure ProofBody where
  proof_index : Option Int
  proof_path : Option (List (Int × String))
deriving DecidableEq

/-- A proof object of `pymerkle/proof.py`. -/
structure Proof where
  header : ProofHeader
  body : ProofBody
deriving DecidableEq

/-- Embeds the standard-creation branch of `Proof.__init__` (the `kwargs`
case of `pymerkle/proof.py`): the `generation` header field is true exactly
when both `proof_index` and `proof_path` are not `None`; `status` starts as
`None`.  The uuid and the two timestamps are environment data passed in as
arguments. -/
def Proof.mk_standard (uuid : String) (timestamp : Int)
    (creation_moment provider hash_type encoding : String) (security : Bool)
    (proof_index : Option Int) (proof_path : Option (List (Int × String))) : Proof :=
  { header :=
      { uuid := uuid
        timestamp := timestamp
        creation_moment := creation_moment
        generation := proof_index.isSome && proof_path.isSome
        provider := provider
        hash_type := hash_type
        encoding := encoding
        security := security
        status := none }
    body :=
      { proof_index := proof_index
        proof_path := proof_path } }

/-- Modelled from the spec: `pymerkle/tree.py` is absent from the sources.
Per the spec, an audit or consistency challenge that matches no leaf or
prior-subtree commitment raises no error: the tree returns a failure proof
with offset `-1` and empty path through the `Proof` constructor of
`pymerkle/proof.py`, which is reached here with `proof_index = -1` and
`proof_path = None` (the only arguments for which the constructor of
`proof.py` yields `generation = False` together with the spec's offset and
serialized empty path). -/
def generate_failure_proof (uuid : String) (timestamp : Int)
    (creation_moment provider hash_type encoding : String) (security : Bool) : Proof :=
  Proof.mk_standard uuid timestamp creation_moment provider hash_type encoding
    security (some (-1)) none

/-- A serialized proof document at the dictionary level: the header key-value
pairs together with the body's `proof_index` (an integer) and `proof_path`
(a list of sign-tagged hex digest strings), as in the JSON shape of the
spec's collaborator contract. -/
structure ProofDoc where
  header : ProofHeader
  body_proof_index : Int
  body_proof_path : List (Int × String)
deriving DecidableEq

/-- Embeds the `from_dict` branch of `Proof.__init__` (`pymerkle/proof.py`):
the header dictionary is carried verbatim; the body's `proof_path` becomes
`None` when the serialized list is empty and a tuple of pairs otherwise,
while `proof_index` is carried over.  The `from_json` branch performs the
same construction after parsing the JSON text into this dictionary shape. -/
def Proof.fromDict (d : ProofDoc) : Proof :=
  { header := d.header
    body :=
      { proof_index := some d.body_proof_index
        proof_path :=
          if d.body_proof_path = [] then none else some d.body_proof_path } }

/-- Modelled from the spec: `pymerkle/serializers.py` is absent from the
sources.  Per the spec's collaborator contract, a proof serializes to a
document carrying the header fields verbatim and the body with an integer
`proof_index` and a list `proof_path`; an absent path serializes as the
empty list, and an absent index as the failure offset `-1`. -/
def Proof.serialize (p : Proof) : ProofDoc :=
  { header := p.header
    body_proof_index := p.body.proof_index.getD (-1)
    body_proof_path := p.body.proof_path.getD [] }

def renderBool : Bool → String
  | true => "true"
  | false => "false"

def renderStatus : Option Bool → String
  | none => "null"
  | some true => "true"
  | some false => "false"

def renderPathEntry (p : Int × String) : String :=
  "[" ++ toString p.1 ++ ", \"" ++ p.2 ++ "\"]"

/-- Deterministic rendering of a proof document to JSON text with keys in
sorted order, modelling the `json.dumps(..., sort_keys=True)` call of
`Proof.JSONstring` (`pymerkle/proof.py`).  The exact whitespace convention is
irrelevant to the round-trip statements: rendering is a function, so equal
documents render to byte-identical text. -/
def renderProofDoc (d : ProofDoc) : String :=
  "\x7b\"body\": \x7b\"proof_index\": " ++ toString d.body_proof_index ++
  ", \"proof_path\": [" ++
  String.intercalate ", " (d.body_proof_path.map renderPathEntry) ++
  "]\x7d, \"header\": \x7b\"creation_moment\": \"" ++ d.header.creation_moment ++
  "\", \"encoding\": \"" ++ d.header.encoding ++
  "\", \"generation\": " ++ renderBool d.header.generation ++
  ", \"hash_type\": \"" ++ d.header.hash_type ++
  "\", \"provider\": \"" ++ d.header.provider ++
  "\", \"security\": " ++ renderBool d.header.security ++
  ", \"status\": " ++ renderStatus d.header.status ++
  ", \"timestamp\": " ++ toString d.header.timestamp ++
  ", \"uuid\": \"" ++ d.header.uuid ++ "\"\x7d\x7d"

/-- Embeds `Proof.JSONstring` of `pymerkle/proof.py`: the serialized form of
the proof rendered as JSON text with sorted keys. -/
def Proof.JSONstring (p : Proof) : String :=
  renderProofDoc p.serialize

-- ===================== Concrete instances for witnesses =====================

/-- A concrete hash engine instance used by the witness theorems (the engine
parameters are abstract, so any instantiation is admissible). -/
def toyEngine : HashEngine :=
  { hexdigest := fun _ => "h"
    encode := fun s => [s.length]
    security := true }

/-- A concrete two-node store used by the witness of the `from_children`
theorem. -/
def toyStore : Store :=
  { mem := fun j =>
      if j = 0 then some ⟨[10], none, none, none⟩
      else if j = 1 then some ⟨[20], none, none, none⟩
      else none
    next := 2 }

-- ============================= Theorems =============================

/-- C1: for every hash engine configuration and every input data (bytes, or a
string first encoded under the engine's encoding), `hash_data(data)` equals
the lowercase hex digest, encoded under the engine's encoding, of the byte
string `0x00 || data` when security is on (the 0x00-prefix being the
character `'\x00'` encoded under the engine's encoding), and of `data` alone
when security is off. -/
theorem hash_data_correct (e : HashEngine) (data : List Nat) (record : String) :
    e.hash_data data =
      (if e.security then e.encode (e.hexdigest (e.encode "\x00" ++ data))
       else e.encode (e.hexdigest data)) ∧
    e.hash_data_str record = e.hash_data (e.encode record) :=
  ⟨rfl, rfl⟩

/-- C2: for every hash engine configuration and every pair of byte sequences
`(a, b)`, `hash_pair(a, b)` equals the hex-encoded digest of
`0x01 || a || 0x01 || b` when security is on (the prefix being `'\x01'`
encoded under the engine's encoding), and of `a || b` when security is off. -/
theorem hash_pair_correct (e : HashEngine) (a b : List Nat) :
    e.hash_pair a b =
      (if e.security then
        e.encode (e.hexdigest (e.encode "\x01" ++ a ++ e.encode "\x01" ++ b))
       else e.encode (e.hexdigest (a ++ b))) :=
  rfl

/-- C3: under the boundary rule of `hash_path`'s fold (a sign pointing to a
nonexistent neighbor uses the neighbor on the available side with the roles
swapped), folding `((+1,d),(+1,d),(+1,d),(s,d))` from start index 0 yields
`hash_pair(hash_pair(hash_pair(d,d),d),d)` for any sign `s` of the last
element, and folding `((s,d),(-1,d),(-1,d),(-1,d))` from start index 3
yields `hash_pair(d, hash_pair(d, hash_pair(d,d)))` for any sign `s` of the
first element. -/
theorem hash_path_boundary_folds (e : HashEngine) (d : List Nat) (s : Int) :
    e.hash_path [(1, d), (1, d), (1, d), (s, d)] 0 =
      Except.ok (e.hash_pair (e.hash_pair (e.hash_pair d d) d) d) ∧
    e.hash_path [(s, d), (-1, d), (-1, d), (-1, d)] 3 =
      Except.ok (e.hash_pair d (e.hash_pair d (e.hash_pair d d))) :=
  ⟨rfl, rfl⟩

/-- C6: for every hash engine, `hash_path` applied to the empty sequence of
signed digests fails with the `EmptyPath` error, regardless of the start
index supplied. -/
theorem hash_path_empty_fails (e : HashEngine) (start : Nat) :
    e.hash_path [] start = Except.error HashPathError.emptyPath :=
  rfl

/-- C7: the three-element fold laws: for any sign `s` of the far element,
`hash_path(((+1,d),(+1,d),(s,d)), 0)` and `hash_path(((+1,d),(-1,d),(s,d)), 1)`
both equal `hash_pair(hash_pair(d,d), d)`, and symmetrically
`hash_path(((s,d),(-1,d),(-1,d)), 2)` and `hash_path(((s,d),(+1,d),(-1,d)), 1)`
both equal `hash_pair(d, hash_pair(d,d))`. -/
theorem hash_path_three_elem_folds (e : HashEngine) (d : List Nat) (s : Int) :
    e.hash_path [(1, d), (1, d), (s, d)] 0 =
      Except.ok (e.hash_pair (e.hash_pair d d) d) ∧
    e.hash_path [(1, d), (-1, d), (s, d)] 1 =
      Except.ok (e.hash_pair (e.hash_pair d d) d) ∧
    e.hash_path [(s, d), (-1, d), (-1, d)] 2 =
      Except.ok (e.hash_pair d (e.hash_pair d d)) ∧
    e.hash_path [(s, d), (1, d), (-1, d)] 1 =
      Except.ok (e.hash_pair d (e.hash_pair d d)) :=
  ⟨rfl, rfl, rfl, rfl⟩

theorem powers_of_zero : powers_of 0 = [] := by
  rw [powers_of]
  simp

theorem powers_of_pos (n : Nat) (h : 0 < n) :
    powers_of n = log_2 n :: powers_of (n - 2 ^ log_2 n) := by
  rw [powers_of]
  simp [h]

theorem log_2_pow_le (n : Nat) (h : 0 < n) : 2 ^ log_2 n ≤ n := by
  unfold log_2
  rw [if_neg (by omega)]
  exact Nat.pow_log_le_self 2 (by omega)

theorem lt_log_2_succ_pow (n : Nat) (h : 0 < n) : n < 2 ^ (log_2 n + 1) := by
  unfold log_2
  rw [if_neg (by omega)]
  exact Nat.lt_pow_succ_log_self (by norm_num) n

theorem log_2_lt_of_lt_pow (r m : Nat) (hr : 0 < r) (h : r < 2 ^ m) :
    log_2 r < m := by
  unfold log_2
  rw [if_neg (by omega)]
  exact Nat.log_lt_of_lt_pow (by omega) h

theorem powers_of_sum (n : Nat) :
    ((powers_of n).map (fun a => 2 ^ a)).sum = n := by
  induction n using Nat.strong_induction_on with
  | _ n ih =>
    by_cases h : 0 < n
    · have hle := log_2_pow_le n h
      have h2 : 0 < 2 ^ log_2 n := pow_pos (by norm_num) _
      rw [powers_of_pos n h]
      simp only [List.map_cons, List.sum_cons]
      rw [ih (n - 2 ^ log_2 n) (by omega)]
      omega
    · have hn : n = 0 := by omega
      subst hn
      rw [powers_of_zero]
      simp

theorem powers_of_chain (n : Nat) :
    List.Chain' (fun a b => b < a) (powers_of n) := by
  induction n using Nat.strong_induction_on with
  | _ n ih =>
    by_cases h : 0 < n
    · have h2 : 0 < 2 ^ log_2 n := pow_pos (by norm_num) _
      rw [powers_of_pos n h]
      by_cases hr : 0 < n - 2 ^ log_2 n
      · rw [powers_of_pos _ hr, List.chain'_cons]
        constructor
        · apply log_2_lt_of_lt_pow _ _ hr
          have hlt := lt_log_2_succ_pow n h
          have hs : 2 ^ (log_2 n + 1) = 2 ^ log_2 n + 2 ^ log_2 n := by ring
          omega
        · rw [← powers_of_pos _ hr]
          exact ih _ (by omega)
      · have h0 : n - 2 ^ log_2 n = 0 := by omega
        rw [h0, powers_of_zero]
        simp
    · have hn : n = 0 := by omega
      subst hn
      rw [powers_of_zero]
      simp

/-- For every integer `n ≥ 1`, `powers_of(n)` computed with the
intent-faithful `log_2` (exact greatest power of two not exceeding the
argument) returns a strictly decreasing sequence of exponents
`a1 > a2 > ... > ak ≥ 0` whose powers of two sum to `n`.  This is the
property claim C8 states; the program as written does not satisfy it at
every input because its float-based `log_2` departs from the exact one (see
the C8 failing-input theorem below). -/
theorem powers_of_correct (n : Nat) (h : 1 ≤ n) :
    List.Chain' (fun a b => b < a) (powers_of n) ∧
    ((powers_of n).map (fun a => 2 ^ a)).sum = n ∧
    2 ^ log_2 n ≤ n ∧ n < 2 ^ (log_2 n + 1) :=
  ⟨powers_of_chain n, powers_of_sum n, log_2_pow_le n h, lt_log_2_succ_pow n h⟩

/-- Concrete instance of `powers_of_correct` at `n = 6`, discharging its
hypothesis. -/
theorem powers_of_correct_witness :
    1 ≤ 6 ∧
    (List.Chain' (fun a b => b < a) (powers_of 6) ∧
     ((powers_of 6).map (fun a => 2 ^ a)).sum = 6 ∧
     2 ^ log_2 6 ≤ 6 ∧ 6 < 2 ^ (log_2 6 + 1)) :=
  ⟨by norm_num, powers_of_correct 6 (by norm_num)⟩

/-- C9: for every pair of nodes and every hash engine, `Node.from_children`
returns a new interior node whose value is `engine.hash_pair` of the
children's values, whose left and right references are the given children,
whose own parent reference is absent, and which is installed as the parent
of each of the two children. -/
theorem from_children_correct (e : HashEngine) (st : Store) (l r : Nat)
    (nl nr : NodeRec) (hl : st.mem l = some nl) (hr : st.mem r = some nr)
    (hlt : l < st.next) (hrt : r < st.next) :
    (Node.from_children e st l r).2 = st.next ∧
    (Node.from_children e st l r).1.mem st.next =
      some ⟨e.hash_pair nl.value nr.value, none, some l, some r⟩ ∧
    (Node.from_children e st l r).1.mem l = some { nl with parent := some st.next } ∧
    (Node.from_children e st l r).1.mem r = some { nr with parent := some st.next } := by
  have hln : ¬ l = st.next := by omega
  have hrn : ¬ r = st.next := by omega
  have hnl : ¬ st.next = l := by omega
  have hnr : ¬ st.next = r := by omega
  by_cases hlr : l = r
  · subst hlr
    have hnlr : nl = nr := by rw [hl] at hr; exact Option.some.inj hr
    subst hnlr
    refine ⟨rfl, ?_, ?_, ?_⟩ <;>
      simp [Node.from_children, Node_init, Store.setParent, Store.valueAt,
        hl, hln, hnl]
  · have hrl : ¬ r = l := fun hh => hlr hh.symm
    refine ⟨rfl, ?_, ?_, ?_⟩ <;>
      simp [Node.from_children, Node_init, Store.setParent, Store.valueAt,
        hl, hr, hln, hrn, hnl, hnr, hlr, hrl]

/-- Witness for C9: a concrete engine and a concrete two-node store. -/
theorem from_children_correct_witness :
    (0 : Nat) < toyStore.next ∧
    ((Node.from_children toyEngine toyStore 0 1).2 = toyStore.next ∧
     (Node.from_children toyEngine toyStore 0 1).1.mem toyStore.next =
       some ⟨toyEngine.hash_pair [10] [20], none, some 0, some 1⟩ ∧
     (Node.from_children toyEngine toyStore 0 1).1.mem 0 =
       some { (⟨[10], none, none, none⟩ : NodeRec) with parent := some toyStore.next } ∧
     (Node.from_children toyEngine toyStore 0 1).1.mem 1 =
       some { (⟨[20], none, none, none⟩ : NodeRec) with parent := some toyStore.next }) :=
  ⟨by decide,
   from_children_correct toyEngine toyStore 0 1 ⟨[10], none, none, none⟩
     ⟨[20], none, none, none⟩ rfl rfl (by decide) (by decide)⟩

/-- C4: for every tree and every audit or consistency challenge that matches
no leaf (respectively no prior-subtree commitment), proof generation raises
no error: it returns (total function) a proof object whose header generation
flag is false, whose path serializes to the empty list, and whose offset is
`-1`. -/
theorem failure_proof_correct (uuid : String) (timestamp : Int)
    (creation_moment provider hash_type encoding : String) (security : Bool) :
    (generate_failure_proof uuid timestamp creation_moment provider hash_type
        encoding security).header.generation = false ∧
    (generate_failure_proof uuid timestamp creation_moment provider hash_type
        encoding security).body.proof_index = some (-1) ∧
    (generate_failure_proof uuid timestamp creation_moment provider hash_type
        encoding security).serialize.body_proof_path = [] :=
  ⟨rfl, rfl, rfl⟩

theorem serialize_fromDict (d : ProofDoc) : (Proof.fromDict d).serialize = d := by
  cases d with
  | mk hdr idx path =>
    unfold Proof.fromDict Proof.serialize
    by_cases h : path = []
    · subst h
      simp
    · simp [h]

/-- C5: for every serialized proof document, deserializing it (constructing a
proof from the document) and re-serializing the resulting proof yields a
byte-identical JSON document under sorted key ordering; in particular this
holds for failure proofs whose `proof_path` is the empty list. -/
theorem proof_roundtrip (d : ProofDoc) :
    (Proof.fromDict d).JSONstring = renderProofDoc d := by
  unfold Proof.JSONstring
  rw [serialize_fromDict]

/-- C10: constructing a proof from a proof document via the `from_dict` (or
`from_json`) branch of `Proof.__init__` sets the resulting body's
`proof_path` to `None` when the document's `proof_path` is the empty list
and to the tuple of its pairs otherwise, while `proof_index` is carried over
unchanged. -/
theorem fromDict_body_conversion (d : ProofDoc) :
    (Proof.fromDict d).body.proof_path =
      (if d.body_proof_path = [] then none else some d.body_proof_path) ∧
    (Proof.fromDict d).body.proof_index = some d.body_proof_index :=
  ⟨rfl, rfl⟩

/-- C8: the code bug at the failing input `n = 2^48 - 1`.  The exponent of
the greatest power of two not exceeding `n` is 47, which is what `log_2`
must return per its own docstring and per the claim, and under that exact
exponent the greedy decomposition sums back to `n`.  The source instead
computes `int(math.log(2**48 - 1, 2))`, whose double-precision result rounds
up to 48: 48 violates the greatest-power bound (`2^48` exceeds `n`), and the
decomposition the source then emits, `(48,)`, sums to `2^48 ≠ n`, so the
claimed sum identity fails on the program at this input. -/
theorem log_2_code_bug_failing_input :
    log_2 (2 ^ 48 - 1) = 47 ∧
    ¬ 2 ^ 48 ≤ 2 ^ 48 - 1 ∧
    (([48] : List Nat).map (fun a => 2 ^ a)).sum ≠ 2 ^ 48 - 1 ∧
    ((powers_of (2 ^ 48 - 1)).map (fun a => 2 ^ a)).sum = 2 ^ 48 - 1 := by
  refine ⟨?_, by norm_num, by norm_num, powers_of_sum _⟩
  unfold log_2
  rw [if_neg (by norm_num)]
  exact Nat.log_eq_of_pow_le_of_lt_pow (by norm_num) (by norm_num)
